import Mathlib

/-!
Verification of the error-rule detection engine
(`src/lib/error-rule-detector.ts`).

The engine keeps three in-memory indices (containment list, exact map,
compiled-regex list) plus `lastReloadTime`, `isLoading` and `isInitialized`
flags, and offers `reload`, `ensureInitialized`, `detectAsync`, `detect`,
`getStats` and `isEmpty`.

Modelling choices:
* JavaScript strings are Lean `String`s; `toLowerCase`, `trim`,
  `includes` are modelled character-exactly (`jsLower`, `jsTrim`,
  `jsIncludes`) for the ASCII range the rules live in.
* The external collaborators are parameters (`Ext`): the outcome of the
  rule-store fetch (`getActiveErrorRules`), the `safe-regex` screen, the
  success of `new RegExp(pattern, "i")`, the compiled regex's `test`
  behaviour, and `Date.now()`.
* An `async` method is a state transformer; the single suspension point
  of `reload` (the store fetch) is made explicit by splitting it into
  `reloadBegin` (up to the fetch) and `reloadFinish` (after it).  The
  `while (this.isLoading)` poll of `ensureInitialized` cannot complete
  within a single-actor step, so that branch is a distinguished
  `EnsureOutcome.waits` outcome; it performs no fetch of its own.
* Each operation additionally reports whether it invoked the store fetch.
-/

namespace ErrorRuleDetector

/-- Whitespace for the purposes of JavaScript `String.prototype.trim`
(space, tab, LF, CR, VT, FF, NBSP, LS, PS, ZWNBSP). -/
def jsWhite (c : Char) : Bool :=
  c.toNat == 32 || c.toNat == 9 || c.toNat == 10 || c.toNat == 13 ||
  c.toNat == 11 || c.toNat == 12 || c.toNat == 160 ||
  c.toNat == 0x2028 || c.toNat == 0x2029 || c.toNat == 0xFEFF

/-- ASCII lowering of one character, as `toLowerCase` acts on the ASCII range. -/
def jsCharLower (c : Char) : Char :=
  if 65 ≤ c.toNat ∧ c.toNat ≤ 90 then Char.ofNat (c.toNat + 32) else c

/-- Model of `s.toLowerCase()`. -/
def jsLower (s : String) : String :=
  ⟨s.data.map jsCharLower⟩

/-- Model of `s.trim()` on the character list. -/
def jsTrimList (l : List Char) : List Char :=
  List.rdropWhile jsWhite (l.dropWhile jsWhite)

/-- Model of `s.trim()`. -/
def jsTrim (s : String) : String :=
  ⟨jsTrimList s.data⟩

/-- `needle` occurs contiguously inside `hay`. -/
def inclList : List Char → List Char → Bool
  | needle, [] => needle.isEmpty
  | needle, hay@(_ :: t) => List.isPrefixOf needle hay || inclList needle t

/-- Model of `hay.includes(needle)`. -/
def jsIncludes (hay needle : String) : Bool :=
  inclList needle.data hay.data

/-- A rule row as served by `getActiveErrorRules()`. -/
structure Rule where
  pattern : String
  category : String
  matchType : String
  description : Option String := none
deriving DecidableEq

/-- Cached regex rule (`RegexPattern`): the compiled `RegExp` is represented
by its source string; its `test` behaviour is an `Ext` parameter. -/
structure RegexEntry where
  source : String
  category : String
  description : Option String := none
deriving DecidableEq

/-- Cached containment rule (`ContainsPattern`). -/
structure ContainsEntry where
  text : String
  category : String
  description : Option String := none
deriving DecidableEq

/-- Cached exact rule (`ExactPattern`). -/
structure ExactEntry where
  text : String
  category : String
  description : Option String := none
deriving DecidableEq

/-- A JavaScript `Map<string, ExactPattern>`: association list with unique
keys; `mapSet` overwrites in place, `mapGet` finds the unique key. -/
abbrev ExactMap := List (String × ExactEntry)

/-- `Map.prototype.set`: overwrite an existing key in place, else append. -/
def mapSet (m : ExactMap) (k : String) (v : ExactEntry) : ExactMap :=
  if (List.any m fun kv => kv.1 = k) then
    List.map (fun kv => if kv.1 = k then (k, v) else kv) m
  else
    List.append m [(k, v)]

/-- `Map.prototype.get`. -/
def mapGet (m : ExactMap) (k : String) : Option ExactEntry :=
  (List.find? (fun kv => kv.1 = k) m).map Prod.snd

/-- `Map.prototype.size` (keys are unique, so the list length). -/
def mapSize (m : ExactMap) : Nat :=
  List.length m

/-- The mutable fields of the `ErrorRuleDetector` class. -/
structure DetectorState where
  regexPatterns : List RegexEntry
  containsPatterns : List ContainsEntry
  exactPatterns : ExactMap
  lastReloadTime : Nat
  isLoading : Bool
  isInitialized : Bool
deriving DecidableEq

/-- The freshly constructed detector (field initializers of the class). -/
def initialState : DetectorState :=
  { regexPatterns := []
    containsPatterns := []
    exactPatterns := []
    lastReloadTime := 0
    isLoading := false
    isInitialized := false }

/-- The external collaborators of one call: the outcome the store fetch
would produce, the `safe-regex` screen, whether `new RegExp(p, "i")`
compiles, the compiled regex's `test`, and `Date.now()`. -/
structure Ext where
  fetch : Except String (List Rule)
  safe : String → Bool
  compiles : String → Bool
  rTest : String → String → Bool
  now : Nat

/-- `ErrorDetectionResult`. -/
structure ErrorDetectionResult where
  matched : Bool
  category : Option String := none
  pattern : Option String := none
  matchType : Option String := none
deriving DecidableEq

/-- The `{ matched: false }` result (optional fields absent). -/
def notMatched : ErrorDetectionResult :=
  { matched := false }

/-- Accumulator of the rule-processing loop of `reload`: the three fresh
indices plus the two local counters. -/
structure LoadAcc where
  regexPatterns : List RegexEntry
  containsPatterns : List ContainsEntry
  exactPatterns : ExactMap
  validRegexCount : Nat
  skippedRedosCount : Nat

/-- The state of the loop accumulator just after the old cache is cleared. -/
def emptyAcc : LoadAcc :=
  { regexPatterns := []
    containsPatterns := []
    exactPatterns := []
    validRegexCount := 0
    skippedRedosCount := 0 }

/-- One iteration of the `for (const rule of rules)` loop in `reload`. -/
def loadStep (safe compiles : String → Bool) (acc : LoadAcc) (rule : Rule) :
    LoadAcc :=
  if rule.matchType = "contains" then
    { acc with
      containsPatterns := acc.containsPatterns ++
        [{ text := jsLower rule.pattern
           category := rule.category
           description := rule.description }] }
  else if rule.matchType = "exact" then
    { acc with
      exactPatterns := mapSet acc.exactPatterns (jsLower rule.pattern)
        { text := jsLower rule.pattern
          category := rule.category
          description := rule.description } }
  else if rule.matchType = "regex" then
    if safe rule.pattern = false then
      -- ReDoS risk: warn, count, skip
      { acc with skippedRedosCount := acc.skippedRedosCount + 1 }
    else if compiles rule.pattern then
      { acc with
        regexPatterns := acc.regexPatterns ++
          [{ source := rule.pattern
             category := rule.category
             description := rule.description }]
        validRegexCount := acc.validRegexCount + 1 }
    else
      -- new RegExp threw: log, skip, keep going
      acc
  else
    -- unknown match type: warn only
    acc

/-- The whole rule-processing loop, from a given accumulator. -/
def loadRulesFrom (safe compiles : String → Bool) (acc : LoadAcc) :
    List Rule → LoadAcc
  | [] => acc
  | r :: rest => loadRulesFrom safe compiles (loadStep safe compiles acc r) rest

/-- The rule-processing loop started on the cleared cache. -/
def loadRules (safe compiles : String → Bool) (rules : List Rule) : LoadAcc :=
  loadRulesFrom safe compiles emptyAcc rules

/-- The severity classification of a failed fetch: `true` when the message
signals the still-missing `error_rules` relation (logged at warn severity),
`false` otherwise (logged at error severity).  Log-only; no state effect. -/
def reloadFailureIsMigration (msg : String) : Bool :=
  jsIncludes msg "relation \"error_rules\" does not exist"

/-- `reload` up to its suspension point (the store fetch): the guard on
`isLoading` and setting the flag.  `none` means the call returned at the
guard without fetching. -/
def reloadBegin (s : DetectorState) : Option DetectorState :=
  if s.isLoading then none
  else some { s with isLoading := true }

/-- `reload` after the fetch resolved: on success clear and repopulate the
indices, stamp the time and mark initialized; on failure touch nothing.
Either way the `finally` clears `isLoading`. -/
def reloadFinish (E : Ext) (s : DetectorState) : DetectorState :=
  match E.fetch with
  | .ok rules =>
    let acc := loadRules E.safe E.compiles rules
    { regexPatterns := acc.regexPatterns
      containsPatterns := acc.containsPatterns
      exactPatterns := acc.exactPatterns
      lastReloadTime := E.now
      isLoading := false
      isInitialized := true }
  | .error _ =>
    { s with isLoading := false }

/-- A complete `reload()` call.  The returned `Bool` records whether
`getActiveErrorRules()` was invoked.  Errors are swallowed inside
(`try`/`catch`), so nothing is propagated. -/
def reload (E : Ext) (s : DetectorState) : DetectorState × Bool :=
  match reloadBegin s with
  | none => (s, false)
  | some s1 => (reloadFinish E s1, true)

/-- Outcome of `ensureInitialized`: either the call ran to completion, or it
entered the `while (this.isLoading)` poll loop, whose exit depends on a
concurrent reload finishing; the waiting branch performs no fetch and no
state mutation of its own. -/
inductive EnsureOutcome where
  | done (s : DetectorState) (fetched : Bool)
  | waits
deriving DecidableEq

/-- `ensureInitialized()`. -/
def ensureInitialized (E : Ext) (s : DetectorState) : EnsureOutcome :=
  if s.isInitialized then .done s false
  else if s.isLoading then .waits
  else
    let r := reload E s
    .done { r.1 with isInitialized := true } r.2

/-- Outcome of `detectAsync`: a result together with the post state and the
fetch record, or suspension in the initialization wait loop. -/
inductive AsyncOutcome where
  | done (r : ErrorDetectionResult) (s : DetectorState) (fetched : Bool)
  | waits
deriving DecidableEq

/-- `msg` is rejected by the `!errorMessage || errorMessage.length === 0`
guard (a `null`-like argument is `none`). -/
def isBlank (msg : Option String) : Bool :=
  match msg with
  | none => true
  | some s => s.data.isEmpty

/-- The containment loop of the detect bodies: first entry whose text the
lowercased message includes. -/
def findContains : List ContainsEntry → String → Option ContainsEntry
  | [], _ => none
  | p :: rest, lowerMessage =>
    if jsIncludes lowerMessage p.text then some p
    else findContains rest lowerMessage

/-- The regex loop of the detect bodies: first entry whose compiled pattern
tests true on the (original, untouched) message. -/
def findRegex (rTest : String → String → Bool) :
    List RegexEntry → String → Option RegexEntry
  | [], _ => none
  | p :: rest, errorMessage =>
    if rTest p.source errorMessage then some p
    else findRegex rTest rest errorMessage

/-- `detectAsync(errorMessage)`. -/
def detectAsync (E : Ext) (msg : Option String) (s : DetectorState) :
    AsyncOutcome :=
  if isBlank msg then .done notMatched s false
  else
    match ensureInitialized E s with
    | .waits => .waits
    | .done s' fetched =>
      let errorMessage := msg.getD ""
      let lowerMessage := jsLower errorMessage
      let trimmedMessage := jsTrim lowerMessage
      match findContains s'.containsPatterns lowerMessage with
      | some p =>
        .done { matched := true, category := some p.category,
                pattern := some p.text, matchType := some "contains" }
          s' fetched
      | none =>
        match mapGet s'.exactPatterns trimmedMessage with
        | some e =>
          .done { matched := true, category := some e.category,
                  pattern := some e.text, matchType := some "exact" }
            s' fetched
        | none =>
          match findRegex E.rTest s'.regexPatterns errorMessage with
          | some r =>
            .done { matched := true, category := some r.category,
                    pattern := some r.source, matchType := some "regex" }
              s' fetched
          | none => .done notMatched s' fetched

/-- Synchronous `detect(errorMessage)`.  In the uninitialized state it fires
`ensureInitialized()` in the background (errors swallowed) and returns
not-matched at once; the returned state and fetch record are the background
task's eventual effect. -/
def detect (E : Ext) (msg : Option String) (s : DetectorState) :
    ErrorDetectionResult × DetectorState × Bool :=
  if s.isInitialized = false then
    match ensureInitialized E s with
    | .done s' fetched => (notMatched, s', fetched)
    | .waits => (notMatched, s, false)
  else if isBlank msg then (notMatched, s, false)
  else
    let errorMessage := msg.getD ""
    let lowerMessage := jsLower errorMessage
    let trimmedMessage := jsTrim lowerMessage
    match findContains s.containsPatterns lowerMessage with
    | some p =>
      ({ matched := true, category := some p.category,
         pattern := some p.text, matchType := some "contains" }, s, false)
    | none =>
      match mapGet s.exactPatterns trimmedMessage with
      | some e =>
        ({ matched := true, category := some e.category,
           pattern := some e.text, matchType := some "exact" }, s, false)
      | none =>
        match findRegex E.rTest s.regexPatterns errorMessage with
        | some r =>
          ({ matched := true, category := some r.category,
             pattern := some r.source, matchType := some "regex" }, s, false)
        | none => (notMatched, s, false)

/-- `getStats()`. -/
structure Stats where
  regexCount : Nat
  containsCount : Nat
  exactCount : Nat
  totalCount : Nat
  lastReloadTime : Nat
  isLoading : Bool
deriving DecidableEq

/-- `getStats()`. -/
def getStats (s : DetectorState) : Stats :=
  { regexCount := s.regexPatterns.length
    containsCount := s.containsPatterns.length
    exactCount := mapSize s.exactPatterns
    totalCount := s.regexPatterns.length + s.containsPatterns.length +
      mapSize s.exactPatterns
    lastReloadTime := s.lastReloadTime
    isLoading := s.isLoading }

/-- `isEmpty()`. -/
def isEmpty (s : DetectorState) : Bool :=
  s.regexPatterns.length = 0 && s.containsPatterns.length = 0 &&
    mapSize s.exactPatterns = 0

/-! ### Basic state lemmas -/

theorem detectorState_eta (s : DetectorState) :
    ({ regexPatterns := s.regexPatterns
       containsPatterns := s.containsPatterns
       exactPatterns := s.exactPatterns
       lastReloadTime := s.lastReloadTime
       isLoading := s.isLoading
       isInitialized := s.isInitialized } : DetectorState) = s := by
  cases s
  rfl

theorem reload_of_isLoading {s : DetectorState} (E : Ext)
    (h : s.isLoading = true) : reload E s = (s, false) := by
  simp [reload, reloadBegin, h]

theorem reload_of_not_isLoading {s : DetectorState} (E : Ext)
    (h : s.isLoading = false) :
    reload E s = (reloadFinish E { s with isLoading := true }, true) := by
  simp [reload, reloadBegin, h]

theorem reloadFinish_error {E : Ext} {err : String}
    (hE : E.fetch = .error err) (s : DetectorState) :
    reloadFinish E s = { s with isLoading := false } := by
  simp [reloadFinish, hE]

/-! ### Lemmas on the tier loops -/

theorem findContains_eq_find? (l : List ContainsEntry) (m : String) :
    findContains l m = l.find? fun p => jsIncludes m p.text := by
  induction l with
  | nil => rfl
  | cons p rest ih =>
    by_cases h : jsIncludes m p.text = true <;>
      simp [findContains, List.find?_cons, h, ih]

theorem findRegex_eq_find? (rTest : String → String → Bool)
    (l : List RegexEntry) (m : String) :
    findRegex rTest l m = l.find? fun r => rTest r.source m := by
  induction l with
  | nil => rfl
  | cons r rest ih =>
    by_cases h : rTest r.source m = true <;>
      simp [findRegex, List.find?_cons, h, ih]

theorem findContains_mem {l : List ContainsEntry} {m : String}
    {p : ContainsEntry} (h : findContains l m = some p) : p ∈ l := by
  rw [findContains_eq_find?] at h
  exact List.mem_of_find?_eq_some h

theorem findContains_spec {l : List ContainsEntry} {m : String}
    {p : ContainsEntry} (h : findContains l m = some p) :
    jsIncludes m p.text = true := by
  rw [findContains_eq_find?] at h
  exact List.find?_some (p := fun q : ContainsEntry => jsIncludes m q.text) h

theorem findRegex_mem {rTest : String → String → Bool} {l : List RegexEntry}
    {m : String} {r : RegexEntry} (h : findRegex rTest l m = some r) :
    r ∈ l := by
  rw [findRegex_eq_find?] at h
  exact List.mem_of_find?_eq_some h

theorem findRegex_spec {rTest : String → String → Bool} {l : List RegexEntry}
    {m : String} {r : RegexEntry} (h : findRegex rTest l m = some r) :
    rTest r.source m = true := by
  rw [findRegex_eq_find?] at h
  exact List.find?_some (p := fun q : RegexEntry => rTest q.source m) h

theorem findContains_isSome {l : List ContainsEntry} {m : String}
    (h : ∃ p ∈ l, jsIncludes m p.text = true) :
    ∃ p, findContains l m = some p := by
  rw [findContains_eq_find?]
  obtain ⟨p, hp, hinc⟩ := h
  have : (l.find? fun q => jsIncludes m q.text).isSome :=
    List.find?_isSome.mpr ⟨p, hp, hinc⟩
  exact Option.isSome_iff_exists.mp this

/-! ### Characterization of the rule-processing loop -/

/-- The containment entry a `contains` rule compiles to. -/
def mkContains (r : Rule) : ContainsEntry :=
  { text := jsLower r.pattern, category := r.category,
    description := r.description }

/-- The exact entry an `exact` rule compiles to. -/
def mkExact (r : Rule) : ExactEntry :=
  { text := jsLower r.pattern, category := r.category,
    description := r.description }

/-- The regex entry a `regex` rule compiles to. -/
def mkRegex (r : Rule) : RegexEntry :=
  { source := r.pattern, category := r.category,
    description := r.description }

/-- A regex rule survives the reload: right type, passes the ReDoS screen,
and compiles. -/
def regexKept (safe compiles : String → Bool) (r : Rule) : Bool :=
  (r.matchType == "regex") && safe r.pattern && compiles r.pattern

/-- The exact map produced by folding the `exact` rules of a list over
`mapSet`, starting from a given map. -/
def exactFold : ExactMap → List Rule → ExactMap
  | m, [] => m
  | m, r :: rest =>
    exactFold
      (if r.matchType = "exact" then mapSet m (jsLower r.pattern) (mkExact r)
       else m) rest

theorem loadStep_containsPatterns (safe compiles : String → Bool)
    (acc : LoadAcc) (r : Rule) :
    (loadStep safe compiles acc r).containsPatterns =
      acc.containsPatterns ++
        (if r.matchType = "contains" then [mkContains r] else []) := by
  unfold loadStep mkContains
  split_ifs <;> simp_all

theorem loadStep_exactPatterns (safe compiles : String → Bool)
    (acc : LoadAcc) (r : Rule) :
    (loadStep safe compiles acc r).exactPatterns =
      if r.matchType = "exact" then
        mapSet acc.exactPatterns (jsLower r.pattern) (mkExact r)
      else acc.exactPatterns := by
  unfold loadStep mkExact
  split_ifs <;> simp_all

theorem loadStep_regexPatterns (safe compiles : String → Bool)
    (acc : LoadAcc) (r : Rule) :
    (loadStep safe compiles acc r).regexPatterns =
      acc.regexPatterns ++
        (if regexKept safe compiles r then [mkRegex r] else []) := by
  unfold loadStep mkRegex regexKept
  split_ifs <;> simp_all

theorem loadStep_skippedRedosCount (safe compiles : String → Bool)
    (acc : LoadAcc) (r : Rule) :
    (loadStep safe compiles acc r).skippedRedosCount =
      acc.skippedRedosCount +
        (if (r.matchType == "regex") && !safe r.pattern then 1 else 0) := by
  unfold loadStep
  split_ifs <;> simp_all

theorem loadRulesFrom_append (safe compiles : String → Bool) (acc : LoadAcc)
    (l1 l2 : List Rule) :
    loadRulesFrom safe compiles acc (l1 ++ l2) =
      loadRulesFrom safe compiles (loadRulesFrom safe compiles acc l1) l2 := by
  induction l1 generalizing acc with
  | nil => rfl
  | cons r rest ih => simp [loadRulesFrom, ih]

theorem loadRulesFrom_containsPatterns (safe compiles : String → Bool)
    (acc : LoadAcc) (rs : List Rule) :
    (loadRulesFrom safe compiles acc rs).containsPatterns =
      acc.containsPatterns ++
        (rs.filter fun r => r.matchType == "contains").map mkContains := by
  induction rs generalizing acc with
  | nil => simp [loadRulesFrom]
  | cons r rest ih =>
    rw [loadRulesFrom, ih, loadStep_containsPatterns]
    by_cases h : r.matchType = "contains" <;>
      simp [h, List.filter_cons]

theorem loadRulesFrom_regexPatterns (safe compiles : String → Bool)
    (acc : LoadAcc) (rs : List Rule) :
    (loadRulesFrom safe compiles acc rs).regexPatterns =
      acc.regexPatterns ++
        (rs.filter (regexKept safe compiles)).map mkRegex := by
  induction rs generalizing acc with
  | nil => simp [loadRulesFrom]
  | cons r rest ih =>
    rw [loadRulesFrom, ih, loadStep_regexPatterns]
    by_cases h : regexKept safe compiles r = true <;>
      simp [h, List.filter_cons]

theorem loadRulesFrom_exactPatterns (safe compiles : String → Bool)
    (acc : LoadAcc) (rs : List Rule) :
    (loadRulesFrom safe compiles acc rs).exactPatterns =
      exactFold acc.exactPatterns rs := by
  induction rs generalizing acc with
  | nil => simp [loadRulesFrom, exactFold]
  | cons r rest ih =>
    rw [loadRulesFrom, ih, exactFold, loadStep_exactPatterns]

theorem loadRulesFrom_skippedRedosCount (safe compiles : String → Bool)
    (acc : LoadAcc) (rs : List Rule) :
    (loadRulesFrom safe compiles acc rs).skippedRedosCount =
      acc.skippedRedosCount +
        ((rs.filter fun r =>
          (r.matchType == "regex") && !safe r.pattern).length) := by
  induction rs generalizing acc with
  | nil => simp [loadRulesFrom]
  | cons r rest ih =>
    rw [loadRulesFrom, ih, loadStep_skippedRedosCount]
    by_cases h : ((r.matchType == "regex") && !safe r.pattern) = true <;>
      simp [h, List.filter_cons] <;> omega

/-- Every stored exact entry's text is exactly its key. -/
def ExactKeyed (m : ExactMap) : Prop :=
  ∀ kv ∈ m, (kv : String × ExactEntry).2.text = kv.1

theorem exactKeyed_mapSet {m : ExactMap} (hm : ExactKeyed m) {k : String}
    {v : ExactEntry} (hv : v.text = k) : ExactKeyed (mapSet m k v) := by
  unfold mapSet
  split_ifs with h
  · intro kv hkv
    obtain ⟨kv0, hkv0, rfl⟩ := List.mem_map.mp hkv
    by_cases hk : kv0.1 = k <;> simp [hk, hv, hm kv0 hkv0]
  · intro kv hkv
    rcases List.mem_append.mp hkv with h1 | h1
    · exact hm kv h1
    · simp only [List.mem_singleton] at h1
      subst h1
      exact hv

theorem exactKeyed_exactFold {m : ExactMap} (hm : ExactKeyed m)
    (rs : List Rule) : ExactKeyed (exactFold m rs) := by
  induction rs generalizing m with
  | nil => exact hm
  | cons r rest ih =>
    rw [exactFold]
    split_ifs with h
    · exact ih (exactKeyed_mapSet hm rfl)
    · exact ih hm

theorem exactKeyed_loadRules (safe compiles : String → Bool)
    (rs : List Rule) : ExactKeyed (loadRules safe compiles rs).exactPatterns := by
  rw [loadRules, loadRulesFrom_exactPatterns]
  exact exactKeyed_exactFold (fun kv hkv => by cases hkv) rs

theorem mapGet_text {m : ExactMap} (hm : ExactKeyed m) {k : String}
    {e : ExactEntry} (h : mapGet m k = some e) : e.text = k := by
  unfold mapGet at h
  obtain ⟨kv, hfind, rfl⟩ := Option.map_eq_some'.mp h
  have hk : kv.1 = k := by
    have := List.find?_some (p := fun kv : String × ExactEntry => kv.1 = k)
      hfind
    simpa using this
  have := hm kv (List.mem_of_find?_eq_some hfind)
  rw [this, hk]

/-! ### Lemmas on trimming and lowering -/

theorem dropWhile_head_false {p : α → Bool} {l t : List α} {a : α}
    (h : List.dropWhile p l = a :: t) : p a = false := by
  have hh := List.head?_dropWhile_not p l
  rw [h] at hh
  exact hh

theorem dropWhile_rdropWhile_dropWhile (p : α → Bool) (l : List α) :
    List.dropWhile p (List.rdropWhile p (List.dropWhile p l)) =
      List.rdropWhile p (List.dropWhile p l) := by
  rcases hr : List.rdropWhile p (List.dropWhile p l) with _ | ⟨a, r⟩
  · simp
  · have hpre := List.rdropWhile_prefix p (List.dropWhile p l)
    rw [hr] at hpre
    obtain ⟨t, ht⟩ := hpre
    have ha : p a = false :=
      dropWhile_head_false (p := p) (l := l) (t := r ++ t)
        (by rw [← ht]; rfl)
    simp [List.dropWhile_cons, ha]

theorem jsTrimList_idem (l : List Char) :
    jsTrimList (jsTrimList l) = jsTrimList l := by
  unfold jsTrimList
  rw [dropWhile_rdropWhile_dropWhile, List.rdropWhile_idempotent]

theorem dropWhile_eq_self_of_length {p : α → Bool} {l : List α}
    (h : (List.dropWhile p l).length = l.length) : List.dropWhile p l = l := by
  cases l with
  | nil => rfl
  | cons a t =>
    rw [List.dropWhile_cons]
    rw [List.dropWhile_cons] at h
    split_ifs with hp
    · exfalso
      rw [if_pos hp] at h
      have hle := (List.dropWhile_sublist (l := t) p).length_le
      simp only [List.length_cons] at h
      omega
    · rfl

theorem rdropWhile_eq_self_of_length {p : α → Bool} {l : List α}
    (h : (List.rdropWhile p l).length = l.length) :
    List.rdropWhile p l = l := by
  unfold List.rdropWhile at h ⊢
  rw [List.length_reverse] at h
  have h2 : (List.dropWhile p l.reverse).length = l.reverse.length := by
    rw [List.length_reverse]
    exact h
  rw [dropWhile_eq_self_of_length h2, List.reverse_reverse]

theorem jsTrimList_eq_self_of_length {l : List Char}
    (h : (jsTrimList l).length = l.length) : jsTrimList l = l := by
  unfold jsTrimList at h ⊢
  have h1 : (List.rdropWhile jsWhite (List.dropWhile jsWhite l)).length ≤
      (List.dropWhile jsWhite l).length := by
    unfold List.rdropWhile
    rw [List.length_reverse]
    have := (List.dropWhile_sublist
      (l := (List.dropWhile jsWhite l).reverse) jsWhite).length_le
    simpa using this
  have h2 : (List.dropWhile jsWhite l).length ≤ l.length :=
    (List.dropWhile_sublist jsWhite).length_le
  have h3 : (List.dropWhile jsWhite l).length = l.length := by omega
  rw [dropWhile_eq_self_of_length h3] at h ⊢
  exact rdropWhile_eq_self_of_length h

theorem toNat_ofNat_small {n : Nat} (h : n < 55296) :
    (Char.ofNat n).toNat = n := by
  unfold Char.ofNat
  rw [dif_pos (Or.inl h)]
  rfl

theorem jsWhite_jsCharLower (c : Char) :
    jsWhite (jsCharLower c) = jsWhite c := by
  unfold jsCharLower
  split_ifs with h
  · have ht : (Char.ofNat (c.toNat + 32)).toNat = c.toNat + 32 :=
      toNat_ofNat_small (by omega)
    have hL : ∀ m : Nat, 65 ≤ m → m ≤ 122 →
        (m == 32 || m == 9 || m == 10 || m == 13 || m == 11 || m == 12 ||
          m == 160 || m == 0x2028 || m == 0x2029 || m == 0xFEFF) = false := by
      intro m hm1 hm2
      simp only [Bool.or_eq_false_iff, beq_eq_false_iff_ne, ne_eq]
      omega
    unfold jsWhite
    rw [ht, hL _ (by omega) (by omega), hL _ (by omega) (by omega)]
  · rfl

theorem jsTrimList_map_lower (l : List Char) :
    jsTrimList (l.map jsCharLower) = (jsTrimList l).map jsCharLower := by
  have hcomp : (jsWhite ∘ jsCharLower) = jsWhite :=
    funext fun c => jsWhite_jsCharLower c
  unfold jsTrimList List.rdropWhile
  rw [List.dropWhile_map, hcomp, ← List.map_reverse, List.dropWhile_map,
    hcomp, ← List.map_reverse]

theorem jsTrim_jsLower (s : String) : jsTrim (jsLower s) = jsLower (jsTrim s) := by
  show String.mk (jsTrimList (s.data.map jsCharLower)) =
    String.mk ((jsTrimList s.data).map jsCharLower)
  rw [jsTrimList_map_lower]

theorem jsTrim_idem (s : String) : jsTrim (jsTrim s) = jsTrim s := by
  show String.mk (jsTrimList (jsTrimList s.data)) =
    String.mk (jsTrimList s.data)
  rw [jsTrimList_idem]

theorem jsTrim_jsLower_ne {p : String} (h : jsTrim p ≠ p) :
    jsTrim (jsLower p) ≠ jsLower p := by
  intro he
  apply h
  rw [jsTrim_jsLower] at he
  have hdata : (jsTrimList p.data).map jsCharLower =
      p.data.map jsCharLower := congrArg String.data he
  have hlen : (jsTrimList p.data).length = p.data.length := by
    have := congrArg List.length hdata
    simpa using this
  have hfix : jsTrimList p.data = p.data := jsTrimList_eq_self_of_length hlen
  show String.mk (jsTrimList p.data) = p
  rw [hfix]

/-! ### Theorems for the claims -/

/-- Environment whose fetch yields no rules; all regexes pass and match
nothing. -/
def extOkEmpty : Ext :=
  { fetch := .ok []
    safe := fun _ => true
    compiles := fun _ => true
    rTest := fun _ _ => false
    now := 0 }

/-- Environment whose fetch fails with a non-migration error. -/
def extFail : Ext :=
  { fetch := .error "connection refused"
    safe := fun _ => true
    compiles := fun _ => true
    rTest := fun _ _ => false
    now := 0 }

/-- A populated, initialized, idle state used by several witnesses. -/
def sampleReady : DetectorState :=
  { regexPatterns := [{ source := "time ?out", category := "timeout" }]
    containsPatterns := [{ text := "error", category := "general" }]
    exactPatterns := [("out of memory", { text := "out of memory", category := "oom" })]
    lastReloadTime := 7
    isLoading := false
    isInitialized := true }

/-- C2: a `reload()` whose store fetch fails leaves the whole snapshot —
the three indices and `lastReloadTime` — exactly as before the call, so
`getStats()` reports the same counts, and no error escapes `reload` (its
model returns a plain poststate, never an exception).  The `true` flag
records that the (failing) fetch was indeed attempted. -/
theorem c2_reload_failure_keeps_snapshot (E : Ext) (err : String)
    (s : DetectorState) (hE : E.fetch = .error err)
    (hs : s.isLoading = false) :
    reload E s = (s, true) ∧ getStats (reload E s).1 = getStats s := by
  have hfin : reloadFinish E { s with isLoading := true } =
      { s with isLoading := false } := reloadFinish_error hE _
  have hss : ({ s with isLoading := false } : DetectorState) = s := by
    cases s
    simp_all
  have hr : reload E s = (s, true) := by
    rw [reload_of_not_isLoading E hs, hfin, hss]
  exact ⟨hr, by rw [hr]⟩

/-- Witness for C2 at a concrete populated snapshot and failing fetch. -/
theorem c2_reload_failure_keeps_snapshot_witness :
    reload extFail sampleReady = (sampleReady, true) ∧
      getStats (reload extFail sampleReady).1 = getStats sampleReady :=
  c2_reload_failure_keeps_snapshot extFail "connection refused" sampleReady
    rfl rfl

/-- C3: mutual exclusion of reloads.  (a) a `reload()` arriving while
`isLoading` is set returns at once, fetching nothing and touching nothing;
(b) a `reload()` from an idle state raises `isLoading` before its fetch,
and any second `reload()` issued against that in-flight state is a no-op
without a fetch, so exactly the first call's fetch-and-swap completes. -/
theorem c3_no_concurrent_reload (E : Ext) (s : DetectorState) :
    (s.isLoading = true → reload E s = (s, false)) ∧
      (s.isLoading = false →
        reloadBegin s = some { s with isLoading := true } ∧
        (∀ E' : Ext,
          reload E' { s with isLoading := true } =
            ({ s with isLoading := true }, false)) ∧
        reload E s = (reloadFinish E { s with isLoading := true }, true)) := by
  refine ⟨fun h => reload_of_isLoading E h, fun h => ⟨?_, fun E' => ?_, ?_⟩⟩
  · simp [reloadBegin, h]
  · exact reload_of_isLoading E' rfl
  · exact reload_of_not_isLoading E h

/-- Witness for C3: a second reload against the in-flight state of a first
reload from `sampleReady` is a no-op. -/
theorem c3_no_concurrent_reload_witness :
    reloadBegin sampleReady = some { sampleReady with isLoading := true } ∧
      reload extOkEmpty { sampleReady with isLoading := true } =
        ({ sampleReady with isLoading := true }, false) := by
  have h := c3_no_concurrent_reload extOkEmpty sampleReady
  exact ⟨(h.2 rfl).1, (h.2 rfl).2.1 extOkEmpty⟩

/-- C9: initialization completes regardless of the load outcome.  If the
engine is already initialized, `ensureInitialized` returns at once with no
fetch and no state change.  Otherwise (no load in flight) it runs one
reload — fetching exactly once — and marks the engine initialized even
when that fetch failed. -/
theorem c9_initialization_completes (E : Ext) (s : DetectorState) :
    (s.isInitialized = true → ensureInitialized E s = .done s false) ∧
      (s.isInitialized = false → s.isLoading = false →
        ∃ s' : DetectorState,
          ensureInitialized E s = .done s' true ∧ s'.isInitialized = true) := by
  constructor
  · intro h
    simp [ensureInitialized, h]
  · intro h hl
    refine ⟨{ (reload E s).1 with isInitialized := true }, ?_, rfl⟩
    simp [ensureInitialized, h, hl, reload_of_not_isLoading E hl]

/-- Witness for C9: from the fresh state with a failing fetch, one
`ensureInitialized` call fetches once and still marks the engine
initialized; on the resulting state it returns immediately. -/
theorem c9_initialization_completes_witness :
    (∃ s' : DetectorState,
        ensureInitialized extFail initialState = .done s' true ∧
          s'.isInitialized = true) ∧
      ensureInitialized extFail { initialState with isInitialized := true } =
        .done { initialState with isInitialized := true } false :=
  ⟨(c9_initialization_completes extFail initialState).2 rfl rfl,
    (c9_initialization_completes extFail
      { initialState with isInitialized := true }).1 rfl⟩

/-- C4 is refuted as stated: on the uninitialized engine the synchronous
`detect` checks `isInitialized` before the empty-input guard and fires the
background initialization, whose reload does fetch the store.  Here the
empty message on the fresh engine makes `detect` report a store fetch. -/
theorem c4_counterexample :
    (detect extOkEmpty (some "") initialState).2.2 = true := by
  decide

/-- C4 (amended): empty or absent input always yields `{matched: false}`
from both entry points; `detectAsync` short-circuits before touching the
store or the indices in every state, while the synchronous `detect` is
fetch-free on empty input only when the engine is already initialized (in
the uninitialized state it fires the background initialization, which
fetches). -/
theorem c4_empty_input (E : Ext) (s : DetectorState) (msg : Option String)
    (hb : isBlank msg = true) :
    detectAsync E msg s = .done notMatched s false ∧
      (detect E msg s).1 = notMatched ∧
      (s.isInitialized = true → detect E msg s = (notMatched, s, false)) := by
  refine ⟨by simp [detectAsync, hb], ?_, ?_⟩
  · unfold detect
    by_cases h : s.isInitialized = false
    · rw [if_pos h]
      cases hE : ensureInitialized E s <;> simp
    · rw [if_neg h, if_pos hb]
  · intro h
    simp [detect, h, hb]

/-- Witness for C4 (amended) at the empty message on a ready engine. -/
theorem c4_empty_input_witness :
    detectAsync extOkEmpty (some "") sampleReady =
        .done notMatched sampleReady false ∧
      (detect extOkEmpty (some "") sampleReady).1 = notMatched ∧
      (sampleReady.isInitialized = true →
        detect extOkEmpty (some "") sampleReady =
          (notMatched, sampleReady, false)) :=
  c4_empty_input extOkEmpty sampleReady (some "") rfl

/-- Environment whose regexes all match everything. -/
def extAllMatch : Ext :=
  { fetch := .ok []
    safe := fun _ => true
    compiles := fun _ => true
    rTest := fun _ _ => true
    now := 0 }

/-- C8: on a ready engine (initialized, no reload running) the synchronous
`detect` and `detectAsync` agree exactly — same result, unchanged state, no
fetch — and on an engine that has not completed its first load the
synchronous `detect` returns `{matched: false}` immediately. -/
theorem c8_sync_async_agree (E : Ext) (msg : Option String)
    (s : DetectorState) :
    (s.isInitialized = true → s.isLoading = false →
      detectAsync E msg s = .done (detect E msg s).1 s false ∧
        detect E msg s = ((detect E msg s).1, s, false)) ∧
      (s.isInitialized = false → (detect E msg s).1 = notMatched) := by
  constructor
  · intro hi _
    have he : ensureInitialized E s = .done s false := by
      simp [ensureInitialized, hi]
    by_cases hb : isBlank msg = true
    · simp [detectAsync, detect, hb, hi, he]
    · have hb' : isBlank msg = false := by simpa using hb
      simp only [detectAsync, detect, hb', hi, he, Bool.false_eq_true,
        if_false, Bool.true_eq_false]
      rcases hfc : findContains s.containsPatterns (jsLower (msg.getD ""))
          with _ | p
      · rcases hme : mapGet s.exactPatterns (jsTrim (jsLower (msg.getD "")))
            with _ | e
        · rcases hfr : findRegex E.rTest s.regexPatterns (msg.getD "")
              with _ | r <;> simp [hfc, hme, hfr]
        · simp [hfc, hme]
      · simp [hfc]
  · intro hi
    unfold detect
    rw [if_pos hi]
    cases hE : ensureInitialized E s <;> simp

/-- Witness for C8 on a populated ready engine, and on the fresh engine for
the synchronous immediate-miss half. -/
theorem c8_sync_async_agree_witness :
    (detectAsync extAllMatch (some "an error occurred") sampleReady =
        .done (detect extAllMatch (some "an error occurred") sampleReady).1
          sampleReady false ∧
      detect extAllMatch (some "an error occurred") sampleReady =
        ((detect extAllMatch (some "an error occurred") sampleReady).1,
          sampleReady, false)) ∧
      (detect extAllMatch (some "an error occurred") initialState).1 =
        notMatched :=
  ⟨(c8_sync_async_agree extAllMatch (some "an error occurred")
      sampleReady).1 rfl rfl,
    (c8_sync_async_agree extAllMatch (some "an error occurred")
      initialState).2 rfl⟩

/-- A detection result is well-formed: a match carries a category, a
pattern and one of the three tier names; a miss carries none of them. -/
def wellFormed (r : ErrorDetectionResult) : Prop :=
  (r.matched = true →
    (∃ c, r.category = some c) ∧ (∃ p, r.pattern = some p) ∧
      (r.matchType = some "contains" ∨ r.matchType = some "exact" ∨
        r.matchType = some "regex")) ∧
  (r.matched = false →
    r.category = none ∧ r.pattern = none ∧ r.matchType = none)

theorem wellFormed_notMatched : wellFormed notMatched := by
  simp [wellFormed, notMatched]

/-- C10: in every engine state and for every input, the result of the
synchronous `detect` — and of any completed `detectAsync` — is
well-formed: when `matched` is true, `category`, `pattern` and `matchType`
(one of the three tiers) are all present; when false, all are absent. -/
theorem c10_result_wellformed (E : Ext) (msg : Option String)
    (s : DetectorState) :
    wellFormed (detect E msg s).1 ∧
      ∀ r s' f, detectAsync E msg s = .done r s' f → wellFormed r := by
  constructor
  · unfold detect
    by_cases hi : s.isInitialized = false
    · rw [if_pos hi]
      cases hE : ensureInitialized E s <;> simp [wellFormed_notMatched]
    · rw [if_neg hi]
      by_cases hb : isBlank msg = true
      · rw [if_pos hb]
        exact wellFormed_notMatched
      · rw [if_neg hb]
        rcases hfc : findContains s.containsPatterns (jsLower (msg.getD ""))
            with _ | p
        · rcases hme : mapGet s.exactPatterns (jsTrim (jsLower (msg.getD "")))
              with _ | e
          · rcases hfr : findRegex E.rTest s.regexPatterns (msg.getD "")
                with _ | r <;> simp [hfc, hme, hfr, wellFormed, notMatched]
          · simp [hfc, hme, wellFormed]
        · simp [hfc, wellFormed]
  · intro r s' f h
    unfold detectAsync at h
    by_cases hb : isBlank msg = true
    · rw [if_pos hb] at h
      cases h
      exact wellFormed_notMatched
    · rw [if_neg hb] at h
      cases hE : ensureInitialized E s with
      | waits =>
        rw [hE] at h
        cases h
      | done s1 f1 =>
        rw [hE] at h
        rcases hfc : findContains s1.containsPatterns (jsLower (msg.getD ""))
            with _ | p
        · rcases hme : mapGet s1.exactPatterns (jsTrim (jsLower (msg.getD "")))
              with _ | e
          · rcases hfr : findRegex E.rTest s1.regexPatterns (msg.getD "")
                with _ | rx
            · simp only [hfc, hme, hfr] at h
              cases h
              exact wellFormed_notMatched
            · simp only [hfc, hme, hfr] at h
              cases h
              simp [wellFormed]
          · simp only [hfc, hme] at h
            cases h
            simp [wellFormed]
        · simp only [hfc] at h
          cases h
          simp [wellFormed]

/-- Witness for C10: a concrete matched sync result and a concrete
completed async call. -/
theorem c10_result_wellformed_witness :
    wellFormed (detect extAllMatch (some "an error occurred")
        sampleReady).1 ∧
      wellFormed notMatched :=
  ⟨(c10_result_wellformed extAllMatch (some "an error occurred")
      sampleReady).1,
    (c10_result_wellformed extAllMatch (some "") sampleReady).2
      notMatched sampleReady false (by decide)⟩

/-- C1: tier priority.  On an initialized engine, for a non-empty message
that matches at least one containment entry and at least one regex entry,
both `detectAsync` and `detect` return the matched result of the first
matching containment entry, with `matchType = "contains"` — the later
tiers are never consulted. -/
theorem c1_tier_priority (E : Ext) (s : DetectorState) (msg : String)
    (hi : s.isInitialized = true) (hm : msg.data ≠ [])
    (hc : ∃ p ∈ s.containsPatterns, jsIncludes (jsLower msg) p.text = true)
    (_ : ∃ r ∈ s.regexPatterns, E.rTest r.source msg = true) :
    ∃ p ∈ s.containsPatterns,
      jsIncludes (jsLower msg) p.text = true ∧
      detectAsync E (some msg) s =
        .done { matched := true, category := some p.category,
                pattern := some p.text, matchType := some "contains" }
          s false ∧
      detect E (some msg) s =
        ({ matched := true, category := some p.category,
           pattern := some p.text, matchType := some "contains" },
          s, false) := by
  obtain ⟨p, hfc⟩ := findContains_isSome hc
  have hb : isBlank (some msg) = false := by
    simp [isBlank, hm]
  have he : ensureInitialized E s = .done s false := by
    simp [ensureInitialized, hi]
  refine ⟨p, findContains_mem hfc, findContains_spec hfc, ?_, ?_⟩
  · unfold detectAsync
    rw [if_neg (by simp [hb]), he]
    simp [hfc]
  · unfold detect
    rw [if_neg (by simp [hi]), if_neg (by simp [hb])]
    simp [hfc]

/-- Witness for C1 on a ready engine whose regexes match everything. -/
theorem c1_tier_priority_witness :
    ∃ p ∈ sampleReady.containsPatterns,
      jsIncludes (jsLower "An ERROR: time out") p.text = true ∧
      detectAsync extAllMatch (some "An ERROR: time out") sampleReady =
        .done { matched := true, category := some p.category,
                pattern := some p.text, matchType := some "contains" }
          sampleReady false ∧
      detect extAllMatch (some "An ERROR: time out") sampleReady =
        ({ matched := true, category := some p.category,
           pattern := some p.text, matchType := some "contains" },
          sampleReady, false) :=
  c1_tier_priority extAllMatch sampleReady "An ERROR: time out" rfl
    (by decide)
    ⟨{ text := "error", category := "general" }, by decide, by decide⟩
    ⟨{ source := "time ?out", category := "timeout" }, by decide, rfl⟩

/-- Exhaustive shape of a synchronous `detect` result: a miss, or the
literal result built from a containment entry, a successful exact lookup,
or a regex entry of the current snapshot. -/
theorem detect_forms (E : Ext) (msg : Option String) (s : DetectorState) :
    (detect E msg s).1 = notMatched ∨
    (∃ p ∈ s.containsPatterns, (detect E msg s).1 =
      { matched := true, category := some p.category,
        pattern := some p.text, matchType := some "contains" }) ∨
    (∃ e, mapGet s.exactPatterns (jsTrim (jsLower (msg.getD ""))) = some e ∧
      (detect E msg s).1 =
        { matched := true, category := some e.category,
          pattern := some e.text, matchType := some "exact" }) ∨
    (∃ rx ∈ s.regexPatterns, (detect E msg s).1 =
      { matched := true, category := some rx.category,
        pattern := some rx.source, matchType := some "regex" }) := by
  unfold detect
  by_cases hi : s.isInitialized = false
  · rw [if_pos hi]
    cases hE : ensureInitialized E s with
    | done s1 f1 => exact Or.inl rfl
    | waits => exact Or.inl rfl
  · rw [if_neg hi]
    by_cases hb : isBlank msg = true
    · rw [if_pos hb]
      exact Or.inl rfl
    · rw [if_neg hb]
      rcases hfc : findContains s.containsPatterns (jsLower (msg.getD ""))
          with _ | p
      · rcases hme : mapGet s.exactPatterns (jsTrim (jsLower (msg.getD "")))
            with _ | e
        · rcases hfr : findRegex E.rTest s.regexPatterns (msg.getD "")
              with _ | rx
          · simp only [hfc, hme, hfr]
            left
            trivial
          · simp only [hfc, hme, hfr]
            refine Or.inr (Or.inr (Or.inr ⟨rx, findRegex_mem hfr, ?_⟩))
            trivial
        · simp only [hfc, hme]
          refine Or.inr (Or.inr (Or.inl ⟨e, ?_, ?_⟩)) <;> trivial
      · simp only [hfc]
        refine Or.inr (Or.inl ⟨p, findContains_mem hfc, ?_⟩)
        trivial

/-- Every regex entry installed by the processing loop passed the
`safe-regex` screen on its source. -/
theorem loadRules_regex_safe {safe compiles : String → Bool}
    {rules : List Rule} {e : RegexEntry}
    (he : e ∈ (loadRules safe compiles rules).regexPatterns) :
    safe e.source = true := by
  rw [loadRules, loadRulesFrom_regexPatterns] at he
  simp only [emptyAcc, List.nil_append, List.mem_map] at he
  obtain ⟨r0, hr0, rfl⟩ := he
  have hk := (List.mem_filter.mp hr0).2
  simp only [regexKept, Bool.and_eq_true, beq_iff_eq] at hk
  exact hk.1.2

/-- A successful exact lookup keyed by a trimmed key never yields an entry
whose text still carries edge whitespace. -/
theorem exact_lookup_text_ne {safe compiles : String → Bool}
    {rules : List Rule} {r : Rule} (hws : jsTrim r.pattern ≠ r.pattern)
    {msg : String} {e : ExactEntry}
    (hget : mapGet (loadRules safe compiles rules).exactPatterns
      (jsTrim (jsLower msg)) = some e) :
    e.text ≠ jsLower r.pattern := by
  intro heq
  have hkeyed := exactKeyed_loadRules safe compiles rules
  have htext : e.text = jsTrim (jsLower msg) := mapGet_text hkeyed hget
  have hne : jsTrim (jsLower r.pattern) ≠ jsLower r.pattern :=
    jsTrim_jsLower_ne hws
  have h1 : jsLower r.pattern = jsTrim (jsLower msg) := heq.symm.trans htext
  have h2 := congrArg jsTrim h1
  rw [jsTrim_idem, ← h1] at h2
  exact hne h2

/-- C5: the ReDoS screen.  (a) no installed regex entry has a source that
fails the screen, so no detect result can be attributed to a rejected
pattern (e); (b) the rejected-for-safety rules are exactly what the skipped
counter counts; (c) a rejected rule only bumps the skipped counter — the
three indices come out as if the rule were absent, so the reload completes
for the remaining rules; (d) a rule whose pattern fails to compile is
skipped with no effect at all and no abort. -/
theorem c5_redos_screen (safe compiles : String → Bool) (rules : List Rule) :
    (∀ p : String, safe p = false →
      ∀ e ∈ (loadRules safe compiles rules).regexPatterns, e.source ≠ p) ∧
    ((loadRules safe compiles rules).skippedRedosCount =
      (rules.filter fun r =>
        (r.matchType == "regex") && !safe r.pattern).length) ∧
    (∀ pre suf : List Rule, ∀ bad : Rule, bad.matchType = "regex" →
      safe bad.pattern = false → rules = pre ++ bad :: suf →
      (loadRules safe compiles rules).containsPatterns =
        (loadRules safe compiles (pre ++ suf)).containsPatterns ∧
      (loadRules safe compiles rules).exactPatterns =
        (loadRules safe compiles (pre ++ suf)).exactPatterns ∧
      (loadRules safe compiles rules).regexPatterns =
        (loadRules safe compiles (pre ++ suf)).regexPatterns ∧
      (loadRules safe compiles rules).skippedRedosCount =
        (loadRules safe compiles (pre ++ suf)).skippedRedosCount + 1) ∧
    (∀ pre suf : List Rule, ∀ bad : Rule, bad.matchType = "regex" →
      safe bad.pattern = true → compiles bad.pattern = false →
      rules = pre ++ bad :: suf →
      loadRules safe compiles rules = loadRules safe compiles (pre ++ suf)) ∧
    (∀ E : Ext, ∀ msg : Option String, ∀ s : DetectorState,
      s.regexPatterns = (loadRules safe compiles rules).regexPatterns →
      ∀ q : String, safe q = false →
      (detect E msg s).1.matchType = some "regex" →
      (detect E msg s).1.pattern ≠ some q) := by
  refine ⟨?_, ?_, ?_, ?_, ?_⟩
  · intro p hp e he heq
    have := loadRules_regex_safe he
    rw [heq, hp] at this
    exact Bool.noConfusion this
  · rw [loadRules, loadRulesFrom_skippedRedosCount]
    simp [emptyAcc]
  · intro pre suf bad h1 h2 hsplit
    subst hsplit
    have hA : loadRules safe compiles (pre ++ bad :: suf) =
        loadRulesFrom safe compiles
          (loadStep safe compiles (loadRulesFrom safe compiles emptyAcc pre)
            bad) suf := by
      rw [loadRules, loadRulesFrom_append]
      rfl
    have hB : loadRules safe compiles (pre ++ suf) =
        loadRulesFrom safe compiles
          (loadRulesFrom safe compiles emptyAcc pre) suf := by
      rw [loadRules, loadRulesFrom_append]
    have hstep : loadStep safe compiles
        (loadRulesFrom safe compiles emptyAcc pre) bad =
        { loadRulesFrom safe compiles emptyAcc pre with
          skippedRedosCount :=
            (loadRulesFrom safe compiles emptyAcc pre).skippedRedosCount +
              1 } := by
      unfold loadStep
      rw [h1, if_neg (by decide), if_neg (by decide), if_pos rfl, if_pos h2]
    rw [hA, hB, hstep]
    refine ⟨?_, ?_, ?_, ?_⟩
    · simp only [loadRulesFrom_containsPatterns]
    · simp only [loadRulesFrom_exactPatterns]
    · simp only [loadRulesFrom_regexPatterns]
    · simp only [loadRulesFrom_skippedRedosCount]
      omega
  · intro pre suf bad h1 h2 h3 hsplit
    subst hsplit
    have hstep : loadStep safe compiles
        (loadRulesFrom safe compiles emptyAcc pre) bad =
        loadRulesFrom safe compiles emptyAcc pre := by
      unfold loadStep
      rw [h1, if_neg (by decide), if_neg (by decide), if_pos rfl,
        if_neg (by simp [h2]), if_neg (by simp [h3])]
    rw [loadRules, loadRules, loadRulesFrom_append, loadRulesFrom_append]
    show loadRulesFrom safe compiles
      (loadStep safe compiles (loadRulesFrom safe compiles emptyAcc pre) bad)
      suf = _
    rw [hstep]
  · intro E msg s hsreg q hq hmt
    rcases detect_forms E msg s with h0 | ⟨p, _, h0⟩ | ⟨e, _, h0⟩ |
        ⟨rx, hrx, h0⟩
    · rw [h0] at hmt
      exact absurd hmt (by simp [notMatched])
    · rw [h0] at hmt
      exact absurd (Option.some.inj hmt)
        (by decide : ¬("contains" : String) = "regex")
    · rw [h0] at hmt
      exact absurd (Option.some.inj hmt)
        (by decide : ¬("exact" : String) = "regex")
    · rw [h0]
      intro heq
      simp only [Option.some.injEq] at heq
      rw [hsreg] at hrx
      have := loadRules_regex_safe hrx
      rw [heq, hq] at this
      exact Bool.noConfusion this

/-- `safe-regex` stand-in that rejects exactly the catastrophic pattern
used in the C5 witness. -/
def safeDemo : String → Bool := fun p => !(p == "(a+)+$")

/-- The three regex rules of the C5 witness, the middle one ReDoS-risky. -/
def ruleTimeoutRx : Rule :=
  { pattern := "timeout", category := "t", matchType := "regex" }

/-- The catastrophic-backtracking rule of the C5 witness. -/
def ruleBoomRx : Rule :=
  { pattern := "(a+)+$", category := "boom", matchType := "regex" }

/-- The trailing safe rule of the C5 witness. -/
def ruleRefusedRx : Rule :=
  { pattern := "refused", category := "r", matchType := "regex" }

/-- Rule list with a ReDoS-risky regex between two safe ones. -/
def redosRules : List Rule :=
  [ruleTimeoutRx, ruleBoomRx, ruleRefusedRx]

/-- Witness for C5: the rejected `(a+)+$` bumps only the skipped counter,
and the surviving first entry is not attributed to it. -/
theorem c5_redos_screen_witness :
    (mkRegex ruleTimeoutRx).source ≠ "(a+)+$" ∧
      (loadRules safeDemo (fun _ => true) redosRules).skippedRedosCount =
        (loadRules safeDemo (fun _ => true)
          ([ruleTimeoutRx] ++ [ruleRefusedRx])).skippedRedosCount + 1 :=
  ⟨(c5_redos_screen safeDemo (fun _ => true) redosRules).1 "(a+)+$"
      (by decide) (mkRegex ruleTimeoutRx) (by decide),
    ((c5_redos_screen safeDemo (fun _ => true) redosRules).2.2.1
      [ruleTimeoutRx] [ruleRefusedRx] ruleBoomRx rfl (by decide)
      rfl).2.2.2⟩

/-- A ready engine whose containment tier holds `p` as its first match
returns exactly the containment result, untouched state, no fetch. -/
theorem detect_contains_branch (E : Ext) (msg : String) (s : DetectorState)
    (hi : s.isInitialized = true) (hm : msg.data ≠ [])
    {p : ContainsEntry}
    (hfc : findContains s.containsPatterns (jsLower msg) = some p) :
    detect E (some msg) s =
      ({ matched := true, category := some p.category,
         pattern := some p.text, matchType := some "contains" },
        s, false) := by
  unfold detect
  rw [if_neg (by simp [hi]), if_neg (by simp [isBlank, hm])]
  simp [hfc]

/-- Environment serving one exact rule `"out of memory"`. -/
def ruleOom : Rule :=
  { pattern := "out of memory", category := "oom", matchType := "exact" }

/-- Environment whose fetch yields only `ruleOom`. -/
def extOom : Ext :=
  { fetch := .ok [ruleOom]
    safe := fun _ => true
    compiles := fun _ => true
    rTest := fun _ _ => false
    now := 3 }

/-- The engine state after reloading `extOom` from the fresh engine. -/
def sOom : DetectorState :=
  (reload extOom initialState).1

/-- An exact rule that can never be hit: its pattern carries trailing
whitespace, while lookup keys are always trimmed. -/
def ruleOomWs : Rule :=
  { pattern := "oom ", category := "c1", matchType := "exact" }

/-- A reachable exact rule loaded next to `ruleOomWs`. -/
def ruleGoodExact : Rule :=
  { pattern := "good", category := "c2", matchType := "exact" }

/-- C6: exact-tier semantics.  Keys are stored lowercased but untrimmed;
lookups are lowercased and trimmed.  Concretely, the exact rule
`"out of memory"` matches `"  Out Of Memory  "` but not
`"out of memory error"`; and in general an exact rule whose pattern
carries leading or trailing whitespace is unreachable: no lookup key is
ever equal to its stored (untrimmed) text, at the map level and at the
`detect` level. -/
theorem c6_exact_trim_lookup :
    detect extOom (some "  Out Of Memory  ") sOom =
      ({ matched := true, category := some "oom",
         pattern := some "out of memory", matchType := some "exact" },
        sOom, false) ∧
    (detect extOom (some "out of memory error") sOom).1 = notMatched ∧
    (∀ safe compiles : String → Bool, ∀ rules : List Rule, ∀ r ∈ rules,
      r.matchType = "exact" → jsTrim r.pattern ≠ r.pattern →
      ∀ msg : String, ∀ e : ExactEntry,
        mapGet (loadRules safe compiles rules).exactPatterns
          (jsTrim (jsLower msg)) = some e →
        e.text ≠ jsLower r.pattern) ∧
    (∀ E : Ext, ∀ msg : Option String, ∀ s : DetectorState,
      ∀ safe compiles : String → Bool, ∀ rules : List Rule,
      s.exactPatterns = (loadRules safe compiles rules).exactPatterns →
      ∀ r ∈ rules, r.matchType = "exact" → jsTrim r.pattern ≠ r.pattern →
      (detect E msg s).1.matchType = some "exact" →
      (detect E msg s).1.pattern ≠ some (jsLower r.pattern)) := by
  refine ⟨by decide, by decide, ?_, ?_⟩
  · intro safe compiles rules r _ _ hws msg e hget
    exact exact_lookup_text_ne (r := r) hws hget
  · intro E msg s safe compiles rules hs r _ _ hws hmt
    rcases detect_forms E msg s with h0 | ⟨p, _, h0⟩ | ⟨e, he, h0⟩ |
        ⟨rx, _, h0⟩
    · rw [h0] at hmt
      exact absurd hmt (by simp [notMatched])
    · rw [h0] at hmt
      exact absurd (Option.some.inj hmt)
        (by decide : ¬("contains" : String) = "exact")
    · rw [h0]
      intro heq
      have he' : mapGet (loadRules safe compiles rules).exactPatterns
          (jsTrim (jsLower (msg.getD ""))) = some e := by
        rw [← hs]
        exact he
      exact exact_lookup_text_ne (r := r) hws he' (Option.some.inj heq)
    · rw [h0] at hmt
      exact absurd (Option.some.inj hmt)
        (by decide : ¬("regex" : String) = "exact")

/-- Witness for C6: the whitespace-carrying exact rule `"oom "` is
unreachable — a lookup that does return an entry returns one with a
different text. -/
theorem c6_exact_trim_lookup_witness :
    ({ text := "good", category := "c2" } : ExactEntry).text ≠
      jsLower "oom " :=
  c6_exact_trim_lookup.2.2.1 (fun _ => true) (fun _ => true)
    [ruleOomWs, ruleGoodExact] ruleOomWs (by decide) rfl (by decide)
    "good" { text := "good", category := "c2" } (by decide)

/-- First demo containment rule of C7. -/
def demoErrRule : Rule :=
  { pattern := "error", category := "e1", matchType := "contains" }

/-- Second demo containment rule of C7, loaded after `demoErrRule`. -/
def demoErrTimeoutRule : Rule :=
  { pattern := "error: timeout", category := "e2", matchType := "contains" }

/-- The C7 demo rule list, in store order. -/
def demoContainsRules : List Rule :=
  [demoErrRule, demoErrTimeoutRule]

/-- C7: first-match-wins in load order.  The containment index lists the
`contains` rules in store order; the containment loop returns the first
entry whose text the message includes (`List.find?`); the regex index and
loop behave the same way; and concretely, with `"error"` loaded before
`"error: timeout"`, a message containing both texts is reported with
pattern `"error"`. -/
theorem c7_first_match_wins :
    (∀ safe compiles : String → Bool, ∀ rules : List Rule,
      (loadRules safe compiles rules).containsPatterns =
        (rules.filter fun r => r.matchType == "contains").map mkContains) ∧
    (∀ l : List ContainsEntry, ∀ m : String,
      findContains l m = l.find? fun p => jsIncludes m p.text) ∧
    (∀ safe compiles : String → Bool, ∀ rules : List Rule,
      (loadRules safe compiles rules).regexPatterns =
        (rules.filter (regexKept safe compiles)).map mkRegex) ∧
    (∀ rT : String → String → Bool, ∀ l : List RegexEntry, ∀ m : String,
      findRegex rT l m = l.find? fun r => rT r.source m) ∧
    (∀ E : Ext, ∀ s0 : DetectorState, ∀ msg : String,
      E.fetch = .ok demoContainsRules → s0.isLoading = false →
      jsIncludes (jsLower msg) "error" = true →
      jsIncludes (jsLower msg) "error: timeout" = true →
      (detect E (some msg) (reload E s0).1).1.pattern = some "error" ∧
      (detect E (some msg) (reload E s0).1).1.matchType = some "contains") := by
  refine ⟨?_, ?_, ?_, ?_, ?_⟩
  · intro safe compiles rules
    rw [loadRules, loadRulesFrom_containsPatterns]
    simp [emptyAcc]
  · exact findContains_eq_find?
  · intro safe compiles rules
    rw [loadRules, loadRulesFrom_regexPatterns]
    simp [emptyAcc]
  · exact findRegex_eq_find?
  · intro E s0 msg hE hl hinc1 hinc2
    have hmne : msg.data ≠ [] := by
      intro h0
      obtain ⟨d⟩ := msg
      simp only at h0
      subst h0
      exact absurd hinc1 (by decide)
    have hs' : (reload E s0).1 =
        reloadFinish E { s0 with isLoading := true } := by
      rw [reload_of_not_isLoading E hl]
    have hfin : reloadFinish E { s0 with isLoading := true } =
        { regexPatterns :=
            (loadRules E.safe E.compiles demoContainsRules).regexPatterns
          containsPatterns :=
            (loadRules E.safe E.compiles demoContainsRules).containsPatterns
          exactPatterns :=
            (loadRules E.safe E.compiles demoContainsRules).exactPatterns
          lastReloadTime := E.now
          isLoading := false
          isInitialized := true } := by
      simp only [reloadFinish, hE]
    have hcp : (loadRules E.safe E.compiles demoContainsRules).containsPatterns
        = [mkContains demoErrRule, mkContains demoErrTimeoutRule] := by
      rw [loadRules, loadRulesFrom_containsPatterns]
      decide
    have htext : (mkContains demoErrRule).text = "error" := by decide
    have hfc : findContains
        [mkContains demoErrRule, mkContains demoErrTimeoutRule]
        (jsLower msg) = some (mkContains demoErrRule) := by
      unfold findContains
      rw [htext, hinc1]
      simp
    rw [hs', hfin]
    have hdet := detect_contains_branch E msg
      { regexPatterns :=
          (loadRules E.safe E.compiles demoContainsRules).regexPatterns
        containsPatterns :=
          (loadRules E.safe E.compiles demoContainsRules).containsPatterns
        exactPatterns :=
          (loadRules E.safe E.compiles demoContainsRules).exactPatterns
        lastReloadTime := E.now
        isLoading := false
        isInitialized := true }
      rfl hmne (p := mkContains demoErrRule)
      (by
        show findContains
          (loadRules E.safe E.compiles demoContainsRules).containsPatterns
          (jsLower msg) = some (mkContains demoErrRule)
        rw [hcp]
        exact hfc)
    rw [hdet]
    simp [htext]

/-- Witness for C7 on a concrete message containing both demo texts. -/
theorem c7_first_match_wins_witness :
    (detect (Ext.mk (.ok demoContainsRules) (fun _ => true) (fun _ => true)
        (fun _ _ => false) 9)
      (some "hit ERROR: timeout now")
      (reload (Ext.mk (.ok demoContainsRules) (fun _ => true) (fun _ => true)
        (fun _ _ => false) 9) initialState).1).1.pattern = some "error" ∧
    (detect (Ext.mk (.ok demoContainsRules) (fun _ => true) (fun _ => true)
        (fun _ _ => false) 9)
      (some "hit ERROR: timeout now")
      (reload (Ext.mk (.ok demoContainsRules) (fun _ => true) (fun _ => true)
        (fun _ _ => false) 9) initialState).1).1.matchType =
      some "contains" :=
  c7_first_match_wins.2.2.2.2
    (Ext.mk (.ok demoContainsRules) (fun _ => true) (fun _ => true)
      (fun _ _ => false) 9)
    initialState "hit ERROR: timeout now" rfl rfl (by decide) (by decide)

end ErrorRuleDetector
